import Mathlib

/-!
Shallow embedding of the Safe_Array lock-free fixed-capacity container
(the safe_array.h implementation reproduced in the repository README),
executed single-threaded: each atomic compare-and-swap loop runs without
interference, so its body executes once and the exchange succeeds whenever
the loaded expectation still matches at the decision point.  Machine
integers are modelled as Nat with explicit reductions modulo 2 ^ 32
(std::uint32_t state words, the 32-bit index/counter halves of the packed
free-list head) and modulo 2 ^ 64 (std::uint64_t / std::size_t).
Destruction of an element leaves the slot storage bytes in place, exactly
as the in-place destructor call does.
-/

namespace SafeArray

/-- Entry::STATE_MASK: the low two bits of a slot state word select the
lifecycle phase. -/
def STATE_MASK : Nat := 0x3

/-- Entry::SlotState::EMPTY. -/
def EMPTY : Nat := 0

/-- Entry::SlotState::INIT. -/
def INIT : Nat := 1

/-- Entry::SlotState::READY. -/
def READY : Nat := 2

/-- Entry::SlotState::REMOVING. -/
def REMOVING : Nat := 3

/-- The bitwise complement of STATE_MASK on a 32-bit word
(the C expression ~STATE_MASK at type std::uint32_t). -/
def NOT_STATE_MASK : Nat := 2 ^ 32 - 1 - STATE_MASK

/-- The phase of a state word: st & STATE_MASK. -/
def state_bits (v : Nat) : Nat := v &&& STATE_MASK

/-- The ABA-counter field of a state word: st & ~STATE_MASK
(the counter occupies the upper 30 bits, still in shifted position). -/
def clear_state_bits (v : Nat) : Nat := v &&& NOT_STATE_MASK

/-- The ABA counter of a state word in counting units, i.e. the upper
30 bits shifted down.  This is not an expression the source computes; it
names the counter component that the specification talks about. -/
def ctr_units (v : Nat) : Nat := v / 4

/-- One slot of the arena: the atomic state word (uint32), the in-place
storage for the element, and the next-free-index link (size_t).  A
default-constructed Entry has state EMPTY and next_free_index 0; the
storage bytes are indeterminate, modelled by the Inhabited default. -/
structure Entry (α : Type) where
  state : Nat
  storage : α
  next_free_index : Nat
deriving DecidableEq

instance [Inhabited α] : Inhabited (Entry α) := ⟨⟨EMPTY, default, 0⟩⟩

/-- The arena: the slot array and the packed free-list head word (uint64).
The capacity is the length of the data list; INVALID_INDEX = Capacity is
the sentinel for an empty free list. -/
@[ext] structure Arena (α : Type) where
  data : List (Entry α)
  free_list_head : Nat
deriving DecidableEq

/-- capacity(): the compile-time Capacity. -/
def capacity (s : Arena α) : Nat := s.data.length

/-- pack_index_counter: (std::uint64_t(ctr) << 32) | idx.  The 64-bit left
shift keeps only the low 32 bits of the counter in the upper half. -/
def pack_index_counter (idx ctr : Nat) : Nat :=
  (ctr % 2 ^ 32) * 2 ^ 32 ||| idx % 2 ^ 64

/-- The index half of a packed head word: v & 0xFFFFFFFF. -/
def unpack_index (v : Nat) : Nat := v &&& 0xFFFFFFFF

/-- The counter half of a packed head word: v >> 32. -/
def unpack_counter (v : Nat) : Nat := v >>> 32

/-- Overwrite the state word of slot i (an atomic store in the source;
writes past the end of the array do not occur on any path our theorems
exercise and are modelled as no-ops by List.set). -/
def set_state [Inhabited α] (s : Arena α) (i st : Nat) : Arena α :=
  { s with data := s.data.set i { s.data.getD i default with state := st } }

/-- Construct the element of slot i in place (placement new). -/
def set_storage [Inhabited α] (s : Arena α) (i : Nat) (x : α) : Arena α :=
  { s with data := s.data.set i { s.data.getD i default with storage := x } }

/-- Overwrite the next_free_index link of slot i. -/
def set_next [Inhabited α] (s : Arena α) (i nf : Nat) : Arena α :=
  { s with data := s.data.set i { s.data.getD i default with next_free_index := nf } }

/-- push_free_index(index): store the old head index into the slot's
next_free_index link, then CAS the head to (index, counter + 1).  Run
single-threaded the loop body executes once and the CAS succeeds. -/
def push_free_index [Inhabited α] (s : Arena α) (index : Nat) : Arena α :=
  let old_idx := unpack_index s.free_list_head
  let old_ctr := unpack_counter s.free_list_head
  let s1 := set_next s index old_idx
  { s1 with free_list_head := pack_index_counter index (old_ctr + 1) }

/-- pop_free_index(index): read the head; if its index half is
INVALID_INDEX (= Capacity) report the list empty, otherwise follow the
slot's next link and CAS the head to (next, counter + 1).  Run
single-threaded the CAS succeeds on the first attempt. -/
def pop_free_index [Inhabited α] (s : Arena α) : Option Nat × Arena α :=
  let old_idx := unpack_index s.free_list_head
  let old_ctr := unpack_counter s.free_list_head
  if old_idx = s.data.length then (none, s)
  else
    let next_idx := (s.data.getD old_idx default).next_free_index
    (some old_idx,
      { s with free_list_head := pack_index_counter next_idx (old_ctr + 1) })

/-- The word installed by the EMPTY -> INIT compare-and-swap in insert:
the current counter field with the INIT phase, (ctr | INIT). -/
def insert_init_word (old_st : Nat) : Nat := clear_state_bits old_st ||| INIT

/-- The word installed by the publishing release store in insert:
counter bumped by one unit, phase READY:
((prev_ctr + (1u << 2)) & ~STATE_MASK) | READY on uint32. -/
def insert_ready_word (init_st : Nat) : Nat :=
  clear_state_bits ((clear_state_bits init_st + (1 <<< 2)) % 2 ^ 32) ||| READY

/-- insert(args...): pop a free index; CAS that slot EMPTY -> INIT
(failure, i.e. a phase other than EMPTY, aborts with nullopt and does not
return the index to the free list); construct the element in place; then
release-store the bumped counter with phase READY and return the index
and a reference to the new element. -/
def insert [Inhabited α] (s : Arena α) (x : α) : Option (Nat × α) × Arena α :=
  match pop_free_index s with
  | (none, s1) => (none, s1)
  | (some idx, s1) =>
    let old_st := (s1.data.getD idx default).state
    if state_bits old_st ≠ EMPTY then
      (none, s1)
    else
      let s2 := set_state s1 idx (insert_init_word old_st)
      let s3 := set_storage s2 idx x
      let s4 := set_state s3 idx (insert_ready_word (insert_init_word old_st))
      (some (idx, x), s4)

/-- The word installed by the READY -> REMOVING compare-and-swap in erase:
the current counter field with the REMOVING phase. -/
def erase_removing_word (old_st : Nat) : Nat := clear_state_bits old_st ||| REMOVING

/-- The word installed by the final release store in erase: counter bumped
by one unit, phase EMPTY. -/
def erase_empty_word (rem_st : Nat) : Nat :=
  clear_state_bits ((clear_state_bits rem_st + (1 <<< 2)) % 2 ^ 32) ||| EMPTY

/-- erase(idx): bounds-check; CAS the slot READY -> REMOVING (any other
phase aborts with false and no writes); destroy the element in place
(the storage bytes stay behind); release-store the bumped counter with
phase EMPTY; finally push the index back onto the free list. -/
def erase [Inhabited α] (s : Arena α) (idx : Nat) : Bool × Arena α :=
  if idx ≥ s.data.length then (false, s)
  else
    let old_st := (s.data.getD idx default).state
    if state_bits old_st ≠ READY then (false, s)
    else
      let s1 := set_state s idx (erase_removing_word old_st)
      let s2 := set_state s1 idx (erase_empty_word (erase_removing_word old_st))
      let s3 := push_free_index s2 idx
      (true, s3)

/-- at(idx): bounds-check, acquire-load the state word, and return the
index and a reference to the element only when the phase is READY. -/
def at_idx [Inhabited α] (s : Arena α) (idx : Nat) : Option (Nat × α) :=
  if idx ≥ s.data.length then none
  else
    let st := (s.data.getD idx default).state
    if state_bits st ≠ READY then none
    else some (idx, (s.data.getD idx default).storage)

/-- find_if(pred): scan slots 0..Capacity-1 in order; for each slot whose
state decodes to READY, test the predicate on the element; return the
first hit. -/
def find_if [Inhabited α] (s : Arena α) (pred : α → Bool) : Option (Nat × α) :=
  (List.range s.data.length).findSome? fun i =>
    let st := (s.data.getD i default).state
    if state_bits st = READY then
      if pred ((s.data.getD i default).storage) then
        some (i, (s.data.getD i default).storage)
      else none
    else none

/-- find(value): find_if with the equality predicate v == value. -/
def find [Inhabited α] [BEq α] (s : Arena α) (value : α) : Option (Nat × α) :=
  find_if s fun v => v == value

/-- size(): count the slots whose state decodes to READY. -/
def size [Inhabited α] (s : Arena α) : Nat :=
  (List.range s.data.length).countP fun i =>
    state_bits (s.data.getD i default).state == READY

/-- A bounds-checked write of slot i's next_free_index link, used to model
the constructor: an out-of-bounds write is the undefined behaviour the
constructor commits for Capacity = 0, surfaced here as none. -/
def set_next_checked [Inhabited α] (d : List (Entry α)) (i nf : Nat) :
    Option (List (Entry α)) :=
  if i < d.length then
    some (d.set i { d.getD i default with next_free_index := nf })
  else none

/-- The constructor loop, for (i = 0; i < Capacity - 1; ++i)
data[i].next_free_index = i + 1, unrolled by iteration count (the fuel
argument is the number of remaining iterations). -/
def init_free_loop [Inhabited α] (d : List (Entry α)) (i : Nat) :
    Nat → Option (List (Entry α))
  | 0 => some d
  | fuel + 1 =>
    match set_next_checked d i (i + 1) with
    | none => none
    | some d1 => init_free_loop d1 (i + 1) fuel

/-- n - 1 in std::size_t arithmetic: wraps to 2 ^ 64 - 1 when n = 0. -/
def size_t_pred (n : Nat) : Nat := (n + (2 ^ 64 - 1)) % 2 ^ 64

/-- Safe_Array(): default-construct the slots (state EMPTY, links 0),
link the free list 0 -> 1 -> ... -> Capacity-1 -> INVALID_INDEX, and set
the head to (index 0, counter 0).  Slot writes are bounds-checked so that
the Capacity = 0 out-of-bounds writes (the loop bound Capacity - 1 wraps
around in size_t) surface as none instead of undefined behaviour. -/
def safe_array_mk_checked [Inhabited α] (cap : Nat) : Option (Arena α) :=
  (init_free_loop (List.replicate cap default : List (Entry α)) 0
      (size_t_pred cap)).bind fun d1 =>
    (set_next_checked d1 (size_t_pred cap) cap).bind fun d2 =>
      some (Arena.mk d2 (pack_index_counter 0 0))

/-- The chain of indices reachable from a given index by following
next_free_index links, cut off at the INVALID_INDEX sentinel (= length of
the data array); the fuel bounds the walk. -/
def free_list_walk [Inhabited α] (d : List (Entry α)) : Nat → Nat → List Nat
  | _, 0 => []
  | idx, fuel + 1 =>
    if idx = d.length then []
    else idx :: free_list_walk d (d.getD idx default).next_free_index fuel

/-- The free list of an arena: the walk from the head's index half, with
fuel Capacity (enough for any well-formed, duplicate-free list). -/
def free_list [Inhabited α] (s : Arena α) : List Nat :=
  free_list_walk s.data (unpack_index s.free_list_head) s.data.length

/-- The next_free_index link the constructor leaves in slot i of a
capacity-n arena: i + 1, except that the last slot links to the sentinel. -/
def free_link (n i : Nat) : Nat := if i = n - 1 then n else i + 1

/-- The arena reached from a fresh capacity-n arena by k successful
inserts (k <= n): slots 0..k-1 are READY at counter 1 (state word 6)
holding f 0 .. f (k-1), slots k..n-1 are untouched, the constructor links
are intact, and the head is (index k, counter k). -/
def filled_upto [Inhabited α] (n k : Nat) (f : Nat → α) : Arena α :=
  Arena.mk
    ((List.range n).map fun i =>
      if i < k then Entry.mk 6 (f i) (free_link n i)
      else Entry.mk 0 default (free_link n i))
    (pack_index_counter k k)

/-- Iterate pop_free_index the given number of times, collecting results. -/
def pop_seq [Inhabited α] (s : Arena α) : Nat → List (Option Nat) × Arena α
  | 0 => ([], s)
  | k + 1 =>
    ((pop_free_index s).1 :: (pop_seq (pop_free_index s).2 k).1,
      (pop_seq (pop_free_index s).2 k).2)

/-- Run the README capacity-2 scenario single-threaded and check every
observation it prescribes.  The checks on a2b = a2 record that the failed
insert on the full arena left the arena unchanged. -/
def scenario_cap2 : Bool :=
  match safe_array_mk_checked (α := Nat) 2 with
  | none => false
  | some a0 =>
    match insert a0 10 with
    | (some (0, 10), a1) =>
      match insert a1 20 with
      | (some (1, 20), a2) =>
        match insert a2 30 with
        | (none, a2b) =>
          decide (a2b = a2) &&
          (match erase a2b 0 with
          | (true, a3) =>
            match insert a3 30 with
            | (some (0, 30), a4) =>
              decide (find a4 20 = some (1, 20)) && decide (size a4 = 2)
            | _ => false
          | _ => false)
        | _ => false
      | _ => false
    | _ => false

/-! ### Arithmetic facts about the bit-level helpers -/

/-- Bitwise or of disjoint fields is addition: the low field fits below
the shift of the high field. -/
theorem lor_two_pow_mul_add {i a b : Nat} (hb : b < 2 ^ i) :
    2 ^ i * a ||| b = 2 ^ i * a + b := by
  apply Nat.eq_of_testBit_eq
  intro j
  rw [Nat.testBit_lor, Nat.testBit_mul_pow_two_add a hb, Nat.testBit_mul_pow_two]
  by_cases hj : j < i
  · simp [hj, Nat.not_le.mpr hj]
  · have hbj : b.testBit j = false :=
      Nat.testBit_lt_two_pow
        (lt_of_lt_of_le hb (Nat.pow_le_pow_right (by norm_num) (Nat.le_of_not_lt hj)))
    simp [hj, Nat.le_of_not_lt hj, hbj]

/-- The phase field is the state word modulo 4. -/
theorem state_bits_eq_mod (v : Nat) : state_bits v = v % 4 := by
  have h := Nat.and_pow_two_sub_one_eq_mod v 2
  norm_num at h
  simpa [state_bits, STATE_MASK] using h

/-- On a 32-bit word, masking with ~STATE_MASK clears the low two bits. -/
theorem clear_state_bits_eq {v : Nat} (hv : v < 2 ^ 32) :
    clear_state_bits v = v / 4 * 4 := by
  apply Nat.eq_of_testBit_eq
  intro j
  have hmask : NOT_STATE_MASK = 2 ^ 2 * (2 ^ 30 - 1) := by
    norm_num [NOT_STATE_MASK, STATE_MASK]
  have hdiv : v / 4 * 4 = 2 ^ 2 * (v >>> 2) := by
    rw [Nat.shiftRight_eq_div_pow]
    norm_num
    ring
  rw [clear_state_bits, hmask, Nat.testBit_and, Nat.testBit_mul_pow_two, hdiv,
    Nat.testBit_mul_pow_two]
  rcases Nat.lt_or_ge j 2 with hj | hj
  · have h0 : ¬ (2 ≤ j) := by omega
    simp [h0]
  · rcases Nat.lt_or_ge j 32 with hj32 | hj32
    · have h1 : (2 ^ 30 - 1).testBit (j - 2) = true := by
        rw [Nat.testBit_two_pow_sub_one]
        simp
        omega
      have h1n : Nat.testBit 1073741823 (j - 2) = true := by
        have he : (1073741823 : Nat) = 2 ^ 30 - 1 := by norm_num
        rw [he]
        exact h1
      have h2 : 2 + (j - 2) = j := by omega
      simp [hj, h1, h1n, Nat.testBit_shiftRight, h2]
    · have hvj : v.testBit j = false :=
        Nat.testBit_lt_two_pow
          (lt_of_lt_of_le hv (Nat.pow_le_pow_right (by norm_num) hj32))
      have h2 : 2 + (j - 2) = j := by omega
      simp [hj, Nat.testBit_shiftRight, h2, hvj]

/-- clear_state_bits is the identity on multiples of 4 below 2 ^ 32. -/
theorem clear_state_bits_mul {m : Nat} (hm : m * 4 < 2 ^ 32) :
    clear_state_bits (m * 4) = m * 4 := by
  rw [clear_state_bits_eq hm, Nat.mul_div_cancel _ (by norm_num)]

/-- The index half of a packed word is its low 32 bits. -/
theorem unpack_index_eq (v : Nat) : unpack_index v = v % 2 ^ 32 := by
  have h := Nat.and_pow_two_sub_one_eq_mod v 32
  norm_num at h
  simpa [unpack_index] using h

/-- The counter half of a packed word is its high 32 bits. -/
theorem unpack_counter_eq (v : Nat) : unpack_counter v = v / 2 ^ 32 := by
  rw [unpack_counter, Nat.shiftRight_eq_div_pow]

/-- Packing with a 32-bit index is plain positional arithmetic. -/
theorem pack_eq {idx : Nat} (ctr : Nat) (h : idx < 2 ^ 32) :
    pack_index_counter idx ctr = ctr % 2 ^ 32 * 2 ^ 32 + idx := by
  have h64 : idx % 2 ^ 64 = idx := Nat.mod_eq_of_lt (by omega)
  rw [pack_index_counter, h64, Nat.mul_comm (ctr % 2 ^ 32),
    lor_two_pow_mul_add h, Nat.mul_comm]

/-- unpack_index recovers a 32-bit index from a packed word. -/
theorem unpack_index_pack {idx : Nat} (ctr : Nat) (h : idx < 2 ^ 32) :
    unpack_index (pack_index_counter idx ctr) = idx := by
  rw [pack_eq ctr h, unpack_index_eq, Nat.mul_comm, Nat.mul_add_mod,
    Nat.mod_eq_of_lt h]

/-- unpack_counter recovers the counter (mod 2 ^ 32) from a packed word. -/
theorem unpack_counter_pack {idx : Nat} (ctr : Nat) (h : idx < 2 ^ 32) :
    unpack_counter (pack_index_counter idx ctr) = ctr % 2 ^ 32 := by
  rw [pack_eq ctr h, unpack_counter_eq, Nat.mul_comm, Nat.mul_add_div (by norm_num),
    Nat.div_eq_of_lt h, Nat.add_zero]

/-- Specialization of the disjoint-or lemma to the two phase bits. -/
theorem mul_four_lor {a b : Nat} (hb : b < 4) : a * 4 ||| b = a * 4 + b := by
  have hb2 : b < 2 ^ 2 := by
    norm_num
    exact hb
  have h4 : a * 4 = 2 ^ 2 * a := by ring
  rw [h4, lor_two_pow_mul_add hb2]

/-- The phase field of a word assembled as counter-times-four plus phase. -/
theorem state_bits_mul_add {q r : Nat} (hr : r < 4) : state_bits (q * 4 + r) = r := by
  rw [state_bits_eq_mod, Nat.mul_comm, Nat.mul_add_mod, Nat.mod_eq_of_lt hr]

/-- The counter units of a word assembled as counter-times-four plus phase. -/
theorem ctr_units_mul_add {q r : Nat} (hr : r < 4) : ctr_units (q * 4 + r) = q := by
  rw [ctr_units, Nat.mul_comm, Nat.mul_add_div (by norm_num), Nat.div_eq_of_lt hr,
    Nat.add_zero]

/-- The EMPTY -> INIT compare-and-swap target: same counter, phase INIT. -/
theorem insert_init_word_eq {v : Nat} (hv : v < 2 ^ 32) :
    insert_init_word v = v / 4 * 4 + 1 := by
  rw [insert_init_word, clear_state_bits_eq hv, INIT, mul_four_lor (by norm_num)]

/-- Division bound used to keep intermediate words below 2 ^ 32. -/
theorem div_four_word_lt {v : Nat} (hv : v < 2 ^ 32) (r : Nat) (hr : r < 4) :
    v / 4 * 4 + r < 2 ^ 32 := by
  have h1 : v / 4 * 4 ≤ v := Nat.div_mul_le_self v 4
  have h2 : v / 4 * 4 % 4 = 0 := Nat.mul_mod_left (v / 4) 4
  omega

/-- The publishing store target of insert: counter bumped by one unit
(wrapping in the 30-bit field), phase READY. -/
theorem insert_ready_word_eq {v : Nat} (hv : v < 2 ^ 32) :
    insert_ready_word (insert_init_word v) = (v / 4 + 1) % 2 ^ 30 * 4 + 2 := by
  rw [insert_ready_word, insert_init_word_eq hv,
    clear_state_bits_eq (div_four_word_lt hv 1 (by norm_num))]
  have hq : (v / 4 * 4 + 1) / 4 * 4 = v / 4 * 4 := by
    rw [Nat.mul_comm (v / 4) 4, Nat.mul_add_div (by norm_num)]
    norm_num
    ring
  rw [hq]
  have hshift : (1 : Nat) <<< 2 = 4 := by decide
  have hmod : (v / 4 * 4 + 4) % 2 ^ 32 = (v / 4 + 1) % 2 ^ 30 * 4 := by
    have h32 : (2 : Nat) ^ 32 = 2 ^ 30 * 4 := by norm_num
    have hfac : v / 4 * 4 + 4 = (v / 4 + 1) * 4 := by ring
    rw [h32, hfac, Nat.mul_mod_mul_right]
  rw [hshift, hmod, clear_state_bits_mul, READY, mul_four_lor (by norm_num)]
  have := Nat.mod_lt (v / 4 + 1) (y := 2 ^ 30) (by norm_num)
  omega

/-- The READY -> REMOVING compare-and-swap target: same counter, phase
REMOVING. -/
theorem erase_removing_word_eq {v : Nat} (hv : v < 2 ^ 32) :
    erase_removing_word v = v / 4 * 4 + 3 := by
  rw [erase_removing_word, clear_state_bits_eq hv, REMOVING, mul_four_lor (by norm_num)]

/-- The final store target of erase: counter bumped by one unit, phase
EMPTY. -/
theorem erase_empty_word_eq {v : Nat} (hv : v < 2 ^ 32) :
    erase_empty_word (erase_removing_word v) = (v / 4 + 1) % 2 ^ 30 * 4 := by
  rw [erase_empty_word, erase_removing_word_eq hv,
    clear_state_bits_eq (div_four_word_lt hv 3 (by norm_num))]
  have hq : (v / 4 * 4 + 3) / 4 * 4 = v / 4 * 4 := by
    rw [Nat.mul_comm (v / 4) 4, Nat.mul_add_div (by norm_num)]
    norm_num
    ring
  rw [hq]
  have hshift : (1 : Nat) <<< 2 = 4 := by decide
  have hmod : (v / 4 * 4 + 4) % 2 ^ 32 = (v / 4 + 1) % 2 ^ 30 * 4 := by
    have h32 : (2 : Nat) ^ 32 = 2 ^ 30 * 4 := by norm_num
    have hfac : v / 4 * 4 + 4 = (v / 4 + 1) * 4 := by ring
    rw [h32, hfac, Nat.mul_mod_mul_right]
  rw [hshift, hmod, clear_state_bits_mul, EMPTY, mul_four_lor (by norm_num)]
  · omega
  · have := Nat.mod_lt (v / 4 + 1) (y := 2 ^ 30) (by norm_num)
    omega

/-! ### List access helpers -/

theorem getD_set_self {β : Type _} [Inhabited β] (l : List β) (i : Nat) (e : β)
    (h : i < l.length) : (l.set i e).getD i default = e := by
  simp [List.getD_eq_getElem?_getD, List.getElem?_set_self h]

theorem getD_set_ne {β : Type _} [Inhabited β] (l : List β) {i j : Nat} (e : β)
    (h : i ≠ j) : (l.set i e).getD j default = l.getD j default := by
  simp [List.getD_eq_getElem?_getD, List.getElem?_set_ne h]

/-- Writing position i of a mapped range is remapping with an updated
function. -/
theorem set_map_range {β : Type _} {n i : Nat} (g : Nat → β) (e : β) (h : i < n) :
    ((List.range n).map g).set i e
      = (List.range n).map fun j => if j = i then e else g j := by
  apply List.ext_getElem?
  intro m
  rcases Nat.lt_or_ge m n with hm | hm
  · rcases Nat.decEq m i with he | he
    · rw [List.getElem?_set_ne (by omega)]
      simp [List.getElem?_map, List.getElem?_range hm, he]
    · subst he
      rw [List.getElem?_set_self (by simp [hm]), List.getElem?_map,
        List.getElem?_range hm]
      simp
  · have h1 : ((List.range n).map g).length ≤ m := by simp [hm]
    have h2 : (((List.range n).map g).set i e).length ≤ m := by simp [hm]
    have h3 : (((List.range n).map fun j => if j = i then e else g j)).length ≤ m := by
      simp [hm]
    rw [List.getElem?_eq_none h2, List.getElem?_eq_none h3]

/-! ### Projections of the primitive writes -/

@[simp] theorem set_state_head [Inhabited α] (s : Arena α) (i st : Nat) :
    (set_state s i st).free_list_head = s.free_list_head := rfl

@[simp] theorem set_storage_head [Inhabited α] (s : Arena α) (i : Nat) (x : α) :
    (set_storage s i x).free_list_head = s.free_list_head := rfl

@[simp] theorem set_next_head [Inhabited α] (s : Arena α) (i nf : Nat) :
    (set_next s i nf).free_list_head = s.free_list_head := rfl

@[simp] theorem set_state_length [Inhabited α] (s : Arena α) (i st : Nat) :
    (set_state s i st).data.length = s.data.length := by
  simp [set_state]

@[simp] theorem set_storage_length [Inhabited α] (s : Arena α) (i : Nat) (x : α) :
    (set_storage s i x).data.length = s.data.length := by
  simp [set_storage]

@[simp] theorem set_next_length [Inhabited α] (s : Arena α) (i nf : Nat) :
    (set_next s i nf).data.length = s.data.length := by
  simp [set_next]

theorem push_free_index_head [Inhabited α] (s : Arena α) (i : Nat) :
    (push_free_index s i).free_list_head
      = pack_index_counter i (unpack_counter s.free_list_head + 1) := rfl

theorem push_free_index_data [Inhabited α] (s : Arena α) (i : Nat) :
    (push_free_index s i).data
      = s.data.set i
          { s.data.getD i default with next_free_index := unpack_index s.free_list_head } :=
  rfl

@[simp] theorem push_free_index_length [Inhabited α] (s : Arena α) (i : Nat) :
    (push_free_index s i).data.length = s.data.length := by
  rw [push_free_index_data]
  simp

/-! ### Branch equations of the operations under sequential execution -/

theorem pop_empty [Inhabited α] {s : Arena α}
    (h : unpack_index s.free_list_head = s.data.length) :
    pop_free_index s = (none, s) := by
  simp [pop_free_index, h]

theorem pop_some [Inhabited α] {s : Arena α}
    (h : unpack_index s.free_list_head ≠ s.data.length) :
    pop_free_index s =
      (some (unpack_index s.free_list_head),
        Arena.mk s.data
          (pack_index_counter
            ((s.data.getD (unpack_index s.free_list_head) default).next_free_index)
            (unpack_counter s.free_list_head + 1))) := by
  simp [pop_free_index, h]

theorem insert_of_empty_list [Inhabited α] {s : Arena α} (x : α)
    (h : unpack_index s.free_list_head = s.data.length) :
    insert s x = (none, s) := by
  rw [insert, pop_empty h]

theorem insert_of_race [Inhabited α] {s : Arena α} (x : α)
    (h : unpack_index s.free_list_head ≠ s.data.length)
    (hst : state_bits ((s.data.getD (unpack_index s.free_list_head) default).state)
      ≠ EMPTY) :
    insert s x =
      (none,
        Arena.mk s.data
          (pack_index_counter
            ((s.data.getD (unpack_index s.free_list_head) default).next_free_index)
            (unpack_counter s.free_list_head + 1))) := by
  rw [insert, pop_some h]
  simp only [List.getD_eq_getElem?_getD] at hst
  simp [hst]

theorem insert_of_success [Inhabited α] {s : Arena α} (x : α)
    (h : unpack_index s.free_list_head ≠ s.data.length)
    (hst : state_bits ((s.data.getD (unpack_index s.free_list_head) default).state)
      = EMPTY) :
    insert s x =
      (some (unpack_index s.free_list_head, x),
        set_state
          (set_storage
            (set_state
              (Arena.mk s.data
                (pack_index_counter
                  ((s.data.getD (unpack_index s.free_list_head) default).next_free_index)
                  (unpack_counter s.free_list_head + 1)))
              (unpack_index s.free_list_head)
              (insert_init_word
                ((s.data.getD (unpack_index s.free_list_head) default).state)))
            (unpack_index s.free_list_head) x)
          (unpack_index s.free_list_head)
          (insert_ready_word
            (insert_init_word
              ((s.data.getD (unpack_index s.free_list_head) default).state)))) := by
  rw [insert, pop_some h]
  simp only [List.getD_eq_getElem?_getD] at hst
  simp [hst]

theorem erase_oob [Inhabited α] {s : Arena α} {i : Nat} (h : s.data.length ≤ i) :
    erase s i = (false, s) := by
  simp [erase, h]

theorem erase_not_ready [Inhabited α] {s : Arena α} {i : Nat}
    (h : i < s.data.length)
    (hst : state_bits ((s.data.getD i default).state) ≠ READY) :
    erase s i = (false, s) := by
  simp only [List.getD_eq_getElem?_getD] at hst
  simp [erase, Nat.not_le.mpr h, hst]

theorem erase_of_ready [Inhabited α] {s : Arena α} {i : Nat}
    (h : i < s.data.length)
    (hst : state_bits ((s.data.getD i default).state) = READY) :
    erase s i =
      (true,
        push_free_index
          (set_state
            (set_state s i (erase_removing_word ((s.data.getD i default).state)))
            i
            (erase_empty_word
              (erase_removing_word ((s.data.getD i default).state))))
          i) := by
  simp only [List.getD_eq_getElem?_getD] at hst
  simp [erase, Nat.not_le.mpr h, hst]

/-! ### The post-states of successful operations, slot by slot -/

theorem insert_success_entry [Inhabited α] {s : Arena α} (x : α)
    (hlt : unpack_index s.free_list_head < s.data.length)
    (hst : state_bits ((s.data.getD (unpack_index s.free_list_head) default).state)
      = EMPTY) :
    ((insert s x).2).data.getD (unpack_index s.free_list_head) default
      = Entry.mk
          (insert_ready_word (insert_init_word
            ((s.data.getD (unpack_index s.free_list_head) default).state)))
          x
          ((s.data.getD (unpack_index s.free_list_head) default).next_free_index) := by
  rw [insert_of_success x (Nat.ne_of_lt hlt) hst]
  simp [set_state, set_storage, getD_set_self, List.set_set, hlt]

theorem insert_success_entry_other [Inhabited α] {s : Arena α} (x : α) {j : Nat}
    (hne : unpack_index s.free_list_head ≠ j)
    (hst : state_bits ((s.data.getD (unpack_index s.free_list_head) default).state)
      = EMPTY)
    (h : unpack_index s.free_list_head ≠ s.data.length) :
    ((insert s x).2).data.getD j default = s.data.getD j default := by
  rw [insert_of_success x h hst]
  simp [set_state, set_storage, List.set_set]
  rw [← List.getD_eq_getElem?_getD, getD_set_ne _ _ hne, List.getD_eq_getElem?_getD]

theorem insert_success_head [Inhabited α] {s : Arena α} (x : α)
    (hst : state_bits ((s.data.getD (unpack_index s.free_list_head) default).state)
      = EMPTY)
    (h : unpack_index s.free_list_head ≠ s.data.length) :
    ((insert s x).2).free_list_head
      = pack_index_counter
          ((s.data.getD (unpack_index s.free_list_head) default).next_free_index)
          (unpack_counter s.free_list_head + 1) := by
  rw [insert_of_success x h hst]
  simp

theorem insert_success_length [Inhabited α] {s : Arena α} (x : α)
    (hst : state_bits ((s.data.getD (unpack_index s.free_list_head) default).state)
      = EMPTY)
    (h : unpack_index s.free_list_head ≠ s.data.length) :
    ((insert s x).2).data.length = s.data.length := by
  rw [insert_of_success x h hst]
  simp

theorem erase_success_entry [Inhabited α] {s : Arena α} {i : Nat}
    (h : i < s.data.length)
    (hst : state_bits ((s.data.getD i default).state) = READY) :
    ((erase s i).2).data.getD i default
      = Entry.mk
          (erase_empty_word (erase_removing_word ((s.data.getD i default).state)))
          ((s.data.getD i default).storage)
          (unpack_index s.free_list_head) := by
  rw [erase_of_ready h hst]
  simp [push_free_index, set_state, set_next, getD_set_self, List.set_set, h]

theorem erase_success_entry_other [Inhabited α] {s : Arena α} {i j : Nat}
    (h : i < s.data.length) (hne : i ≠ j)
    (hst : state_bits ((s.data.getD i default).state) = READY) :
    ((erase s i).2).data.getD j default = s.data.getD j default := by
  rw [erase_of_ready h hst]
  simp [push_free_index, set_state, set_next, List.set_set]
  rw [← List.getD_eq_getElem?_getD, getD_set_ne _ _ hne, List.getD_eq_getElem?_getD]

theorem erase_success_head [Inhabited α] {s : Arena α} {i : Nat}
    (h : i < s.data.length)
    (hst : state_bits ((s.data.getD i default).state) = READY) :
    ((erase s i).2).free_list_head
      = pack_index_counter i (unpack_counter s.free_list_head + 1) := by
  rw [erase_of_ready h hst]
  simp [push_free_index_head]

theorem erase_success_length [Inhabited α] {s : Arena α} {i : Nat}
    (h : i < s.data.length)
    (hst : state_bits ((s.data.getD i default).state) = READY) :
    ((erase s i).2).data.length = s.data.length := by
  rw [erase_of_ready h hst]
  simp

/-! ### Unconditional phase facts about assembled words -/

/-- The counter field always has zero phase bits. -/
theorem clear_state_bits_mod_four (v : Nat) : clear_state_bits v % 4 = 0 := by
  have h := state_bits_eq_mod (clear_state_bits v)
  rw [state_bits, clear_state_bits, Nat.and_assoc] at h
  have hm : NOT_STATE_MASK &&& STATE_MASK = 0 := by decide
  rw [hm, Nat.and_zero] at h
  rw [clear_state_bits]
  omega

/-- Installing a phase into a counter field is plain addition. -/
theorem clear_lor_phase (v r : Nat) (hr : r < 4) :
    clear_state_bits v ||| r = clear_state_bits v + r := by
  have h := clear_state_bits_mod_four v
  have hq : clear_state_bits v = clear_state_bits v / 4 * 4 := by omega
  rw [hq, mul_four_lor hr]

/-- The phase of an assembled word is the phase that was installed. -/
theorem state_bits_clear_lor (v r : Nat) (hr : r < 4) :
    state_bits (clear_state_bits v ||| r) = r := by
  have h := clear_state_bits_mod_four v
  have hq : clear_state_bits v = clear_state_bits v / 4 * 4 := by omega
  rw [clear_lor_phase v r hr, hq, state_bits_mul_add hr]

/-- The word published by insert always decodes to READY. -/
theorem state_bits_insert_ready_word (v : Nat) :
    state_bits (insert_ready_word v) = READY := by
  rw [insert_ready_word, READY]
  exact state_bits_clear_lor _ 2 (by norm_num)

/-- The word stored by the end of erase always decodes to EMPTY. -/
theorem state_bits_erase_empty_word (v : Nat) :
    state_bits (erase_empty_word v) = EMPTY := by
  rw [erase_empty_word, EMPTY]
  exact state_bits_clear_lor _ 0 (by norm_num)

/-! ### The filled_upto family of arenas -/

theorem map_range_getD {β : Type _} [Inhabited β] {n i : Nat} (g : Nat → β)
    (hi : i < n) : ((List.range n).map g).getD i default = g i := by
  simp [List.getD_eq_getElem?_getD, List.getElem?_map, List.getElem?_range hi]

@[simp] theorem filled_upto_length [Inhabited α] (n k : Nat) (f : Nat → α) :
    (filled_upto n k f).data.length = n := by
  simp [filled_upto]

theorem filled_upto_head [Inhabited α] (n k : Nat) (f : Nat → α) :
    (filled_upto n k f).free_list_head = pack_index_counter k k := rfl

theorem filled_upto_entry [Inhabited α] (n k : Nat) (f : Nat → α) {i : Nat}
    (hi : i < n) :
    (filled_upto n k f).data.getD i default
      = if i < k then Entry.mk 6 (f i) (free_link n i)
        else Entry.mk 0 default (free_link n i) := by
  rw [filled_upto]
  exact map_range_getD _ hi

theorem free_link_eq {n k : Nat} (hk : k < n) : free_link n k = k + 1 := by
  rw [free_link]
  split <;> omega

/-- The data written by the success path of insert, collapsed: one slot
update installing the READY word, the new element, and the untouched
next link. -/
theorem insert_chain_data [Inhabited α] (d : List (Entry α)) (h0 k w1 w2 : Nat)
    (x : α) (hk : k < d.length) :
    (set_state (set_storage (set_state (Arena.mk d h0) k w1) k x) k w2).data
      = d.set k (Entry.mk w2 x ((d.getD k default).next_free_index)) := by
  simp only [set_state, set_storage]
  rw [getD_set_self _ _ _ (by simp [hk])]
  rw [getD_set_self _ _ _ (by simp [hk])]
  rw [List.set_set, List.set_set]

/-- One successful insert advances a filled_upto arena by one slot: it
pops index k, installs x there at state word 6 (counter 1, READY), and
moves the head to (k + 1, k + 1). -/
theorem insert_filled_step [Inhabited α] (n k : Nat) (f : Nat → α) (x : α)
    (hk : k < n) (hn : n < 2 ^ 32) :
    insert (filled_upto n k f) x
      = (some (k, x), filled_upto n (k + 1) (Function.update f k x)) := by
  have hk32 : k < 2 ^ 32 := by omega
  have hu : unpack_index (filled_upto n k f).free_list_head = k := by
    rw [filled_upto_head]
    exact unpack_index_pack _ hk32
  have hc : unpack_counter (filled_upto n k f).free_list_head = k := by
    rw [filled_upto_head, unpack_counter_pack _ hk32, Nat.mod_eq_of_lt hk32]
  have hlen : (filled_upto n k f).data.length = n := filled_upto_length n k f
  have hne : unpack_index (filled_upto n k f).free_list_head
      ≠ (filled_upto n k f).data.length := by
    rw [hu, hlen]
    omega
  have hentry : (filled_upto n k f).data.getD k default
      = Entry.mk 0 default (free_link n k) := by
    rw [filled_upto_entry n k f hk]
    simp
  have hst : state_bits (((filled_upto n k f).data.getD
      (unpack_index (filled_upto n k f).free_list_head)) default).state = EMPTY := by
    rw [hu, hentry]
    show state_bits 0 = EMPTY
    decide
  have hnext : ((filled_upto n k f).data.getD k default).next_free_index = k + 1 := by
    rw [hentry, free_link_eq hk]
  have hword : ((filled_upto n k f).data.getD k default).state = 0 := by
    rw [hentry]
  have hinit : insert_init_word 0 = 1 := by decide
  have hready : insert_ready_word 1 = 6 := by decide
  rw [insert_of_success x hne hst, hu, hc, hnext, hword, hinit, hready]
  refine congrArg _ ?_
  apply Arena.ext
  · rw [insert_chain_data _ _ _ _ _ _ (by rw [hlen]; exact hk), hnext]
    have hd : (filled_upto n k f).data
        = (List.range n).map fun i =>
            if i < k then Entry.mk 6 (f i) (free_link n i)
            else Entry.mk 0 default (free_link n i) := rfl
    rw [hd, set_map_range _ _ hk]
    show _ = (filled_upto n (k + 1) (Function.update f k x)).data
    rw [filled_upto]
    apply List.map_congr_left
    intro j hj
    by_cases hjk : j = k
    · rw [if_pos hjk, hjk, if_pos (Nat.lt_succ_self k), Function.update_same,
        free_link_eq hk]
    · rw [if_neg hjk]
      by_cases hjlt : j < k
      · rw [if_pos hjlt, if_pos (by omega : j < k + 1), Function.update_noteq hjk]
      · rw [if_neg hjlt, if_neg (by omega : ¬ j < k + 1)]
  · show pack_index_counter (k + 1) (k + 1)
        = (filled_upto n (k + 1) (Function.update f k x)).free_list_head
    rw [filled_upto_head]

/-! ### Popping every index out of a fresh arena -/

theorem pop_filled_step [Inhabited α] (n k : Nat) (f : Nat → α)
    (hk : k < n) (hn : n < 2 ^ 32) :
    pop_free_index (Arena.mk (filled_upto n 0 f).data (pack_index_counter k k))
      = (some k,
         Arena.mk (filled_upto n 0 f).data (pack_index_counter (k + 1) (k + 1))) := by
  have hk32 : k < 2 ^ 32 := by omega
  have hu : unpack_index (pack_index_counter k k) = k := unpack_index_pack _ hk32
  have hne : unpack_index
        (Arena.mk (filled_upto n 0 f).data (pack_index_counter k k)).free_list_head
      ≠ (Arena.mk (filled_upto n 0 f).data (pack_index_counter k k)).data.length := by
    show unpack_index (pack_index_counter k k) ≠ (filled_upto n 0 f).data.length
    rw [hu, filled_upto_length]
    omega
  rw [pop_some hne]
  show (some (unpack_index (pack_index_counter k k)), _) = _
  rw [hu]
  refine congrArg _ ?_
  refine congrArg _ ?_
  have hentry : (filled_upto n 0 f).data.getD k default
      = Entry.mk 0 default (free_link n k) := by
    rw [filled_upto_entry n 0 f hk]
    simp
  rw [hentry]
  show pack_index_counter (free_link n k) (unpack_counter (pack_index_counter k k) + 1)
      = pack_index_counter (k + 1) (k + 1)
  rw [free_link_eq hk, unpack_counter_pack _ hk32, Nat.mod_eq_of_lt hk32]

theorem pop_seq_filled [Inhabited α] (n : Nat) (f : Nat → α) (hn : n < 2 ^ 32) :
    ∀ (j k : Nat), k + j ≤ n →
      pop_seq (Arena.mk (filled_upto n 0 f).data (pack_index_counter k k)) j
        = ((List.range' k j).map some,
           Arena.mk (filled_upto n 0 f).data (pack_index_counter (k + j) (k + j))) := by
  intro j
  induction j with
  | zero =>
    intro k hk
    rw [pop_seq]
    rfl
  | succ m ih =>
    intro k hk
    have hkn : k < n := by omega
    rw [pop_seq, pop_filled_step n k f hkn hn, ih (k + 1) (by omega)]
    have hsum : k + 1 + m = k + (m + 1) := by omega
    rw [hsum, List.range'_succ]
    rfl

/-! ### The constructor builds exactly the fresh arena -/

theorem replicate_eq_map_range {β : Type _} (n : Nat) (a : β) :
    List.replicate n a = (List.range n).map fun _ => a := by
  rw [List.map_const', List.length_range]

theorem set_next_checked_lt [Inhabited α] (d : List (Entry α)) (i nf : Nat)
    (h : i < d.length) :
    set_next_checked d i nf
      = some (d.set i { d.getD i default with next_free_index := nf }) := by
  simp [set_next_checked, h]

theorem init_free_loop_spec [Inhabited α] (n : Nat) :
    ∀ (m i : Nat) (g : Nat → Entry α), i + m < n →
      init_free_loop ((List.range n).map g) i m
        = some ((List.range n).map fun j =>
            if i ≤ j ∧ j < i + m then
              Entry.mk (g j).state (g j).storage (j + 1)
            else g j) := by
  intro m
  induction m with
  | zero =>
    intro i g h
    rw [init_free_loop]
    refine congrArg some ?_
    apply List.map_congr_left
    intro j hj
    rw [if_neg (by omega)]
  | succ m ih =>
    intro i g h
    have hi : i < n := by omega
    have hilen : i < ((List.range n).map g).length := by
      simp [hi]
    rw [init_free_loop, set_next_checked_lt _ _ _ hilen, map_range_getD g hi,
      set_map_range _ _ hi]
    show init_free_loop _ (i + 1) m = _
    rw [ih (i + 1) _ (by omega)]
    refine congrArg some ?_
    apply List.map_congr_left
    intro j hj
    by_cases hj1 : i + 1 ≤ j ∧ j < i + 1 + m
    · rw [if_pos hj1, if_neg (by omega : ¬ j = i),
        if_pos (by omega : i ≤ j ∧ j < i + (m + 1))]
    · by_cases hji : j = i
      · rw [if_neg hj1, if_pos hji, hji,
          if_pos (by omega : i ≤ i ∧ i < i + (m + 1))]
      · rw [if_neg hj1, if_neg hji,
          if_neg (by omega : ¬ (i ≤ j ∧ j < i + (m + 1)))]

theorem size_t_pred_eq {cap : Nat} (h1 : 1 ≤ cap) (h2 : cap < 2 ^ 32) :
    size_t_pred cap = cap - 1 := by
  rw [size_t_pred]
  have hsplit : cap + (2 ^ 64 - 1) = (cap - 1) + 1 * 2 ^ 64 := by omega
  rw [hsplit, Nat.add_mul_mod_self_right]
  exact Nat.mod_eq_of_lt (by omega)

/-- For a positive capacity, the constructor produces exactly the fresh
arena: state EMPTY everywhere, links 0 -> 1 -> ... -> Capacity-1 ->
INVALID_INDEX, head (0, 0). -/
theorem safe_array_mk_eq [Inhabited α] (cap : Nat) (h1 : 1 ≤ cap)
    (h2 : cap < 2 ^ 32) :
    safe_array_mk_checked cap = some (filled_upto cap 0 fun _ => (default : α)) := by
  rw [safe_array_mk_checked, size_t_pred_eq h1 h2, replicate_eq_map_range,
    init_free_loop_spec cap (cap - 1) 0 (fun _ => (default : Entry α)) (by omega),
    Option.some_bind]
  have hlen : ((List.range cap).map fun j =>
      if 0 ≤ j ∧ j < 0 + (cap - 1) then
        Entry.mk (default : Entry α).state (default : Entry α).storage (j + 1)
      else (default : Entry α)).length = cap := by
    simp
  rw [set_next_checked_lt _ _ _ (by rw [hlen]; omega), Option.some_bind,
    map_range_getD _ (by omega : cap - 1 < cap), set_map_range _ _ (by omega)]
  refine congrArg some ?_
  apply Arena.ext
  · show _ = (filled_upto cap 0 fun _ => (default : α)).data
    rw [filled_upto]
    apply List.map_congr_left
    intro j hj
    have hjn : j < cap := List.mem_range.mp hj
    rw [if_neg (by omega : ¬ j < 0), free_link_eq hjn]
    by_cases hje : j = cap - 1
    · rw [if_pos hje, if_neg (by omega : ¬ (0 ≤ cap - 1 ∧ cap - 1 < 0 + (cap - 1)))]
      have hc : j + 1 = cap := by omega
      rw [hc]
      rfl
    · rw [if_neg hje, if_pos (by omega : 0 ≤ j ∧ j < 0 + (cap - 1))]
      rfl
  · rfl

/-! ### The claims -/

/-- Claim C6: for every index at or above the capacity, erase returns
false and at returns empty, immediately and with no side effects on any
slot or on the free list (the arena is returned unchanged). -/
theorem c6_invalid_index [Inhabited α] (s : Arena α) (i : Nat)
    (h : s.data.length ≤ i) :
    erase s i = (false, s) ∧ at_idx s i = none :=
  ⟨erase_oob h, by simp [at_idx, h]⟩

/-- Claim C6, witness: a concrete out-of-range index on a concrete arena. -/
theorem c6_invalid_index_witness :
    erase (filled_upto 2 1 fun _ => (7 : Nat)) 5
        = (false, filled_upto 2 1 fun _ => (7 : Nat)) ∧
      at_idx (filled_upto 2 1 fun _ => (7 : Nat)) 5 = none :=
  c6_invalid_index (filled_upto 2 1 fun _ => (7 : Nat)) 5 (by decide)

/-- Claim C7: in any quiescent arena state, size equals the number of
in-range indices whose at is non-empty, i.e. the number of slots whose
state decodes to READY. -/
theorem c7_size_counts_at [Inhabited α] (s : Arena α) :
    size s
      = ((List.range s.data.length).filter fun i => (at_idx s i).isSome).length := by
  rw [size, List.countP_eq_length_filter]
  congr 1
  apply List.filter_congr
  intro i hi
  have hlt : i < s.data.length := List.mem_range.mp hi
  by_cases hr : state_bits ((s.data.getD i default).state) = READY
  · simp only [List.getD_eq_getElem?_getD] at hr
    simp [at_idx, hr, Nat.not_le.mpr hlt]
  · simp only [List.getD_eq_getElem?_getD] at hr
    simp [at_idx, hr, Nat.not_le.mpr hlt]

/-- Claim C9: the README scenario on a capacity-2 arena, run
single-threaded: insert 10 yields index 0, insert 20 yields index 1,
insert 30 fails leaving the arena unchanged, erase 0 returns true,
insert 30 then succeeds reusing index 0, find 20 returns index 1, and
size returns 2. -/
theorem c9_scenario : scenario_cap2 = true := by decide

/-- Claim C5: for an in-range index, erase returns true exactly when the
slot is live (READY), and then removes it (at becomes empty); a failing
erase has no side effects; and erasing twice in a row returns true then
false, the second call leaving the arena untouched. -/
theorem c5_erase_live_iff [Inhabited α] (s : Arena α) (i : Nat)
    (hi : i < s.data.length) :
    ((erase s i).1 = true ↔ state_bits ((s.data.getD i default).state) = READY) ∧
    ((erase s i).1 = true → at_idx (erase s i).2 i = none) ∧
    ((erase s i).1 = false → (erase s i).2 = s) ∧
    ((erase s i).1 = true → erase (erase s i).2 i = (false, (erase s i).2)) := by
  by_cases hr : state_bits ((s.data.getD i default).state) = READY
  · have hent := erase_success_entry hi hr
    have hlen := erase_success_length hi hr
    have hemp : state_bits (((erase s i).2.data.getD i default).state) = EMPTY := by
      rw [hent]
      exact state_bits_erase_empty_word _
    have hemp2 : state_bits (((erase s i).2.data.getD i default).state) ≠ READY := by
      rw [hemp]
      decide
    have hr' : state_bits ((s.data[i]?.getD default).state) = READY := by
      simpa only [List.getD_eq_getElem?_getD] using hr
    refine ⟨?_, ?_, ?_, ?_⟩
    · rw [erase_of_ready hi hr]
      simp [hr']
    · intro _
      simp only [List.getD_eq_getElem?_getD] at hemp2
      simp [at_idx, hemp2, Nat.not_le.mpr (hlen ▸ hi)]
    · intro hfalse
      rw [erase_of_ready hi hr] at hfalse
      simp at hfalse
    · intro _
      exact erase_not_ready (hlen ▸ hi) hemp2
  · have hr' : ¬ state_bits ((s.data[i]?.getD default).state) = READY := by
      simpa only [List.getD_eq_getElem?_getD] using hr
    refine ⟨?_, ?_, ?_, ?_⟩
    · rw [erase_not_ready hi hr]
      simp [hr']
    · intro htrue
      rw [erase_not_ready hi hr] at htrue
      simp at htrue
    · intro _
      rw [erase_not_ready hi hr]
    · intro htrue
      rw [erase_not_ready hi hr] at htrue
      simp at htrue

/-- Claim C5, witness: erasing slot 0 of a two-element arena succeeds,
empties it, and a second erase fails without side effects. -/
theorem c5_erase_live_iff_witness :
    ((erase (filled_upto 2 2 fun j => j) 0).1 = true
        ↔ state_bits (((filled_upto 2 2 fun j => j).data.getD 0 default).state)
            = READY) ∧
    ((erase (filled_upto 2 2 fun j => j) 0).1 = true →
      at_idx (erase (filled_upto 2 2 fun j => j) 0).2 0 = none) ∧
    ((erase (filled_upto 2 2 fun j => j) 0).1 = false →
      (erase (filled_upto 2 2 fun j => j) 0).2 = filled_upto 2 2 fun j => j) ∧
    ((erase (filled_upto 2 2 fun j => j) 0).1 = true →
      erase (erase (filled_upto 2 2 fun j => j) 0).2 0
        = (false, (erase (filled_upto 2 2 fun j => j) 0).2)) :=
  c5_erase_live_iff (filled_upto 2 2 fun j => j) 0 (by decide)

/-- Claim C2: if insert succeeds and returns index i with value x, then
at i immediately afterwards returns a non-empty result holding exactly x
at index i.  The hypothesis says the free-list head index is in range
(it always is in any state reachable from the constructor). -/
theorem c2_insert_then_at [Inhabited α] (s : Arena α) (x : α) (i : Nat) (y : α)
    (s1 : Arena α)
    (hh : unpack_index s.free_list_head ≤ s.data.length)
    (hins : insert s x = (some (i, y), s1)) :
    y = x ∧ at_idx s1 i = some (i, x) := by
  by_cases hhead : unpack_index s.free_list_head = s.data.length
  · rw [insert_of_empty_list x hhead] at hins
    simp at hins
  · by_cases hst : state_bits
        ((s.data.getD (unpack_index s.free_list_head) default).state) = EMPTY
    · have hlt : unpack_index s.free_list_head < s.data.length :=
        Nat.lt_of_le_of_ne hh hhead
      have hat : at_idx (insert s x).2 (unpack_index s.free_list_head)
          = some (unpack_index s.free_list_head, x) := by
        have hlen2 := insert_success_length x hst hhead
        have hent := insert_success_entry x hlt hst
        have hready : state_bits
            (((insert s x).2.data.getD (unpack_index s.free_list_head)
              default).state) = READY := by
          rw [hent]
          exact state_bits_insert_ready_word _
        have hreadyne : ¬ state_bits
            (((insert s x).2.data.getD (unpack_index s.free_list_head)
              default).state) ≠ READY := by
          rw [hready]
          simp
        have hstor : (((insert s x).2.data.getD (unpack_index s.free_list_head)
            default).storage) = x := by
          rw [hent]
        simp only [List.getD_eq_getElem?_getD] at hreadyne hstor
        simp [at_idx, hreadyne, hstor, Nat.not_le.mpr (hlen2 ▸ hlt)]
      have hfin := insert_of_success x hhead hst
      rw [hfin] at hins
      rw [Prod.mk.injEq] at hins
      obtain ⟨h1, h2⟩ := hins
      rw [Option.some.injEq, Prod.mk.injEq] at h1
      obtain ⟨hiu, hy⟩ := h1
      have h2' : (insert s x).2 = s1 := by
        rw [hfin]
        exact h2
      rw [← hiu, ← h2']
      exact ⟨hy.symm, hat⟩
    · rw [insert_of_race x hhead hst] at hins
      simp at hins

/-- Claim C2, witness: inserting 10 into a fresh two-slot arena returns
index 0, and at 0 immediately reads back 10. -/
theorem c2_insert_then_at_witness :
    (10 : Nat) = 10 ∧
    at_idx (SafeArray.insert (filled_upto 2 0 fun _ => (0 : Nat)) 10).2 0
      = some (0, 10) :=
  c2_insert_then_at (filled_upto 2 0 fun _ => (0 : Nat)) 10 0 10
    (SafeArray.insert (filled_upto 2 0 fun _ => (0 : Nat)) 10).2
    (by decide) (by decide)

/-- Claim C3: whenever the free-list head index equals the sentinel
(= Capacity) at the start of insert, insert fails and returns the arena
completely unchanged; a failing erase also leaves the arena unchanged, so
inserts keep failing until some erase succeeds; and in particular the
arena reached from a fresh one by filling all n slots (third conjunct
shows each filling step; it ends at filled_upto n n) rejects every
further insert without state change. -/
theorem c3_capacity_exhausted {α : Type} [Inhabited α] :
    (∀ (s : Arena α) (x : α), unpack_index s.free_list_head = s.data.length →
      insert s x = (none, s)) ∧
    (∀ (s : Arena α) (j : Nat), (erase s j).1 = false → (erase s j).2 = s) ∧
    (∀ (n k : Nat) (f : Nat → α) (x : α), k < n → n < 2 ^ 32 →
      insert (filled_upto n k f) x
        = (some (k, x), filled_upto n (k + 1) (Function.update f k x))) ∧
    (∀ (n : Nat) (f : Nat → α) (x : α), n < 2 ^ 32 →
      insert (filled_upto n n f) x = (none, filled_upto n n f)) := by
  refine ⟨?_, ?_, ?_, ?_⟩
  · intro s x h
    exact insert_of_empty_list x h
  · intro s j hfalse
    rcases Nat.lt_or_ge j s.data.length with hj | hj
    · by_cases hr : state_bits ((s.data.getD j default).state) = READY
      · rw [erase_of_ready hj hr] at hfalse
        simp at hfalse
      · rw [erase_not_ready hj hr]
    · rw [erase_oob hj]
  · intro n k f x hk hn
    exact insert_filled_step n k f x hk hn
  · intro n f x hn
    apply insert_of_empty_list
    rw [filled_upto_head, unpack_index_pack _ (by omega), filled_upto_length]

/-- Claim C3, witness: the full two-slot arena rejects an insert with no
state change, and one filling step behaves as stated. -/
theorem c3_capacity_exhausted_witness :
    SafeArray.insert (filled_upto 2 2 fun _ => (5 : Nat)) 9
      = (none, filled_upto 2 2 fun _ => (5 : Nat)) :=
  (c3_capacity_exhausted (α := Nat)).2.2.2 2 (fun _ => 5) 9 (by norm_num)

/-- Claim C4: if pop succeeds (the head index is a valid slot) but that
slot is not EMPTY, insert returns failure, the slot array is untouched
(in particular push_free_index is not called on this branch), the
resulting free list is exactly the walk from the popped slot's successor,
and hence the popped index is gone from the free list whenever it does
not also occur further down the chain. -/
theorem c4_lost_race_leak [Inhabited α] (s : Arena α) (x : α)
    (hlt : unpack_index s.free_list_head < s.data.length)
    (hst : state_bits ((s.data.getD (unpack_index s.free_list_head) default).state)
      ≠ EMPTY)
    (hnext : (s.data.getD (unpack_index s.free_list_head) default).next_free_index
      < 2 ^ 32) :
    insert s x
      = (none,
         Arena.mk s.data
           (pack_index_counter
             ((s.data.getD (unpack_index s.free_list_head) default).next_free_index)
             (unpack_counter s.free_list_head + 1))) ∧
    (insert s x).2.data = s.data ∧
    free_list (insert s x).2
      = free_list_walk s.data
          ((s.data.getD (unpack_index s.free_list_head) default).next_free_index)
          s.data.length ∧
    (unpack_index s.free_list_head ∉
        free_list_walk s.data
          ((s.data.getD (unpack_index s.free_list_head) default).next_free_index)
          s.data.length →
      unpack_index s.free_list_head ∉ free_list (insert s x).2) := by
  have hrace := insert_of_race x (Nat.ne_of_lt hlt) hst
  have hdata : (insert s x).2.data = s.data := by
    rw [hrace]
  have hwalk : free_list (insert s x).2
      = free_list_walk s.data
          ((s.data.getD (unpack_index s.free_list_head) default).next_free_index)
          s.data.length := by
    rw [hrace, free_list]
    show free_list_walk s.data
        (unpack_index (pack_index_counter
          ((s.data.getD (unpack_index s.free_list_head) default).next_free_index)
          (unpack_counter s.free_list_head + 1)))
        s.data.length = _
    rw [unpack_index_pack _ hnext]
  exact ⟨hrace, hdata, hwalk, fun hnm => hwalk ▸ hnm⟩

/-- Claim C4, witness: a two-slot arena whose head points at slot 0 while
slot 0 is READY (state word 6) with successor the sentinel 2; insert
fails, the slots are untouched, and the free list is left empty, losing
index 0. -/
theorem c4_lost_race_leak_witness :
    SafeArray.insert
        (Arena.mk [Entry.mk 6 (0 : Nat) 2, Entry.mk 0 0 2] 0) 7
      = (none,
         Arena.mk [Entry.mk 6 (0 : Nat) 2, Entry.mk 0 0 2]
           (pack_index_counter 2 1)) ∧
    (SafeArray.insert (Arena.mk [Entry.mk 6 (0 : Nat) 2, Entry.mk 0 0 2] 0) 7).2.data
      = [Entry.mk 6 (0 : Nat) 2, Entry.mk 0 0 2] ∧
    free_list
        (SafeArray.insert (Arena.mk [Entry.mk 6 (0 : Nat) 2, Entry.mk 0 0 2] 0) 7).2
      = free_list_walk [Entry.mk 6 (0 : Nat) 2, Entry.mk 0 0 2] 2 2 ∧
    (0 ∉ free_list_walk [Entry.mk 6 (0 : Nat) 2, Entry.mk 0 0 2] 2 2 →
      0 ∉ free_list
        (SafeArray.insert (Arena.mk [Entry.mk 6 (0 : Nat) 2, Entry.mk 0 0 2] 0) 7).2) := by
  have h := c4_lost_race_leak
    (Arena.mk [Entry.mk 6 (0 : Nat) 2, Entry.mk 0 0 2] 0) 7
    (by decide) (by decide) (by decide)
  exact h

/-- Claim C10: for every Capacity of at least 1 (and below 2 ^ 32, the
index field width), the constructor links the free list
0 -> 1 -> ... -> Capacity-1 -> sentinel, so that exactly Capacity
distinct indices (0 .. Capacity-1, in order) can be popped before
exhaustion and the next pop fails; for Capacity = 0 the loop bound
Capacity - 1 wraps around in size_t and the very first slot write is out
of bounds, so construction fails: Capacity >= 1 is an unstated
precondition. -/
theorem c10_constructor_precondition :
    (∀ cap : Nat, 1 ≤ cap → cap < 2 ^ 32 →
      safe_array_mk_checked (α := Nat) cap
          = some (filled_upto cap 0 fun _ => 0) ∧
      pop_seq (filled_upto cap 0 fun _ => (0 : Nat)) cap
          = ((List.range cap).map some,
             Arena.mk (filled_upto cap 0 fun _ => (0 : Nat)).data
               (pack_index_counter cap cap)) ∧
      (pop_free_index
          (Arena.mk (filled_upto cap 0 fun _ => (0 : Nat)).data
            (pack_index_counter cap cap))).1 = none) ∧
    safe_array_mk_checked (α := Nat) 0 = none := by
  constructor
  · intro cap h1 h2
    refine ⟨safe_array_mk_eq cap h1 h2, ?_, ?_⟩
    · have h := pop_seq_filled cap (fun _ => (0 : Nat)) h2 cap 0 (by omega)
      rw [Nat.zero_add] at h
      rw [List.range_eq_range']
      exact h
    · have hu : unpack_index
          (Arena.mk (filled_upto cap 0 fun _ => (0 : Nat)).data
            (pack_index_counter cap cap)).free_list_head
          = (Arena.mk (filled_upto cap 0 fun _ => (0 : Nat)).data
            (pack_index_counter cap cap)).data.length := by
        show unpack_index (pack_index_counter cap cap)
            = (filled_upto cap 0 fun _ => (0 : Nat)).data.length
        rw [unpack_index_pack _ (by omega), filled_upto_length]
      rw [pop_empty hu]
  · decide

/-- Claim C10, witness: capacity 2 constructs the fresh arena, its two
pops return 0 then 1, and the third pop fails. -/
theorem c10_constructor_precondition_witness :
    safe_array_mk_checked (α := Nat) 2 = some (filled_upto 2 0 fun _ => 0) ∧
    pop_seq (filled_upto 2 0 fun _ => (0 : Nat)) 2
        = ((List.range 2).map some,
           Arena.mk (filled_upto 2 0 fun _ => (0 : Nat)).data
             (pack_index_counter 2 2)) ∧
    (pop_free_index
        (Arena.mk (filled_upto 2 0 fun _ => (0 : Nat)).data
          (pack_index_counter 2 2))).1 = none :=
  (c10_constructor_precondition).1 2 (by norm_num) (by norm_num)

/-- Claim C1 (amended): slot state words move only along the cycle
EMPTY -> INIT -> READY -> REMOVING -> EMPTY.  The EMPTY -> INIT and
READY -> REMOVING steps are the compare-and-swap transitions and leave
the ABA counter unchanged; the INIT -> READY and REMOVING -> EMPTY steps
are plain release stores that increment the counter by one unit (modulo
its 30-bit width).  So the counter strictly increases on exactly two of
the four transitions — once per half cycle — not on every transition.
Conjuncts: (1) the four words written, with their phases and counters;
(2) a successful insert happens exactly at the popped head index, only
from EMPTY, and performs exactly the EMPTY -> INIT -> READY writes on
that one slot; (3) a failed insert writes no slot at all; (4) a
successful erase happens only from READY and performs exactly the
READY -> REMOVING -> EMPTY writes followed by the free-list push;
(5) a failed erase changes nothing. -/
theorem c1_transitions_amended {α : Type} [Inhabited α] :
    (∀ v : Nat, v < 2 ^ 32 →
      state_bits (insert_init_word v) = INIT ∧
      ctr_units (insert_init_word v) = ctr_units v ∧
      state_bits (insert_ready_word (insert_init_word v)) = READY ∧
      ctr_units (insert_ready_word (insert_init_word v))
        = (ctr_units v + 1) % 2 ^ 30 ∧
      state_bits (erase_removing_word v) = REMOVING ∧
      ctr_units (erase_removing_word v) = ctr_units v ∧
      state_bits (erase_empty_word (erase_removing_word v)) = EMPTY ∧
      ctr_units (erase_empty_word (erase_removing_word v))
        = (ctr_units v + 1) % 2 ^ 30) ∧
    (∀ (s : Arena α) (x : α) (i : Nat) (y : α) (s1 : Arena α),
      insert s x = (some (i, y), s1) →
        i = unpack_index s.free_list_head ∧
        state_bits ((s.data.getD i default).state) = EMPTY ∧
        s1 = set_state
              (set_storage
                (set_state
                  (Arena.mk s.data
                    (pack_index_counter
                      ((s.data.getD i default).next_free_index)
                      (unpack_counter s.free_list_head + 1)))
                  i (insert_init_word ((s.data.getD i default).state)))
                i x)
              i (insert_ready_word
                  (insert_init_word ((s.data.getD i default).state)))) ∧
    (∀ (s : Arena α) (x : α) (s1 : Arena α),
      insert s x = (none, s1) → s1.data = s.data) ∧
    (∀ (s : Arena α) (i : Nat),
      (erase s i).1 = true →
        i < s.data.length ∧
        state_bits ((s.data.getD i default).state) = READY ∧
        (erase s i).2
          = push_free_index
              (set_state
                (set_state s i
                  (erase_removing_word ((s.data.getD i default).state)))
                i (erase_empty_word
                    (erase_removing_word ((s.data.getD i default).state))))
              i) ∧
    (∀ (s : Arena α) (i : Nat), (erase s i).1 = false → (erase s i).2 = s) := by
  refine ⟨?_, ?_, ?_, ?_, ?_⟩
  · intro v hv
    have h1 := insert_init_word_eq hv
    have h2 := insert_ready_word_eq hv
    have h3 := erase_removing_word_eq hv
    have h4 := erase_empty_word_eq hv
    have hc : ctr_units v = v / 4 := rfl
    refine ⟨?_, ?_, ?_, ?_, ?_, ?_, ?_, ?_⟩
    · rw [h1, INIT]
      exact state_bits_mul_add (by norm_num)
    · rw [h1, hc]
      exact ctr_units_mul_add (by norm_num)
    · rw [h2, READY]
      exact state_bits_mul_add (by norm_num)
    · rw [h2, hc]
      exact ctr_units_mul_add (by norm_num)
    · rw [h3, REMOVING]
      exact state_bits_mul_add (by norm_num)
    · rw [h3, hc]
      exact ctr_units_mul_add (by norm_num)
    · rw [h4, EMPTY]
      have hz := state_bits_mul_add (q := (v / 4 + 1) % 2 ^ 30) (r := 0) (by norm_num)
      rw [Nat.add_zero] at hz
      exact hz
    · rw [h4, hc]
      have hz := ctr_units_mul_add (q := (v / 4 + 1) % 2 ^ 30) (r := 0) (by norm_num)
      rw [Nat.add_zero] at hz
      exact hz
  · intro s x i y s1 hins
    by_cases hhead : unpack_index s.free_list_head = s.data.length
    · rw [insert_of_empty_list x hhead] at hins
      simp at hins
    · by_cases hst : state_bits
          ((s.data.getD (unpack_index s.free_list_head) default).state) = EMPTY
      · have hfin := insert_of_success x hhead hst
        rw [hfin] at hins
        rw [Prod.mk.injEq] at hins
        obtain ⟨h1, h2⟩ := hins
        rw [Option.some.injEq, Prod.mk.injEq] at h1
        obtain ⟨hiu, _⟩ := h1
        subst hiu
        exact ⟨rfl, hst, h2.symm⟩
      · rw [insert_of_race x hhead hst] at hins
        simp at hins
  · intro s x s1 hins
    by_cases hhead : unpack_index s.free_list_head = s.data.length
    · rw [insert_of_empty_list x hhead] at hins
      rw [Prod.mk.injEq] at hins
      rw [← hins.2]
    · by_cases hst : state_bits
          ((s.data.getD (unpack_index s.free_list_head) default).state) = EMPTY
      · rw [insert_of_success x hhead hst] at hins
        simp at hins
      · rw [insert_of_race x hhead hst] at hins
        rw [Prod.mk.injEq] at hins
        rw [← hins.2]
  · intro s i htrue
    rcases Nat.lt_or_ge i s.data.length with hi | hi
    · by_cases hr : state_bits ((s.data.getD i default).state) = READY
      · refine ⟨hi, hr, ?_⟩
        rw [erase_of_ready hi hr]
      · rw [erase_not_ready hi hr] at htrue
        simp at htrue
    · rw [erase_oob hi] at htrue
      simp at htrue
  · intro s i hfalse
    rcases Nat.lt_or_ge i s.data.length with hi | hi
    · by_cases hr : state_bits ((s.data.getD i default).state) = READY
      · rw [erase_of_ready hi hr] at hfalse
        simp at hfalse
      · rw [erase_not_ready hi hr]
    · rw [erase_oob hi]

/-- Claim C1, witness: the word facts instantiated at the concrete READY
word 6 (counter 1), and the failed-erase clause at a concrete arena. -/
theorem c1_transitions_amended_witness :
    (state_bits (insert_init_word 6) = INIT ∧
      ctr_units (insert_init_word 6) = ctr_units 6 ∧
      state_bits (insert_ready_word (insert_init_word 6)) = READY ∧
      ctr_units (insert_ready_word (insert_init_word 6))
        = (ctr_units 6 + 1) % 2 ^ 30 ∧
      state_bits (erase_removing_word 6) = REMOVING ∧
      ctr_units (erase_removing_word 6) = ctr_units 6 ∧
      state_bits (erase_empty_word (erase_removing_word 6)) = EMPTY ∧
      ctr_units (erase_empty_word (erase_removing_word 6))
        = (ctr_units 6 + 1) % 2 ^ 30) ∧
    (erase (filled_upto 1 0 fun _ => (0 : Nat)) 0).2
      = filled_upto 1 0 fun _ => (0 : Nat) :=
  ⟨(c1_transitions_amended (α := Nat)).1 6 (by norm_num),
   (c1_transitions_amended (α := Nat)).2.2.2.2
     (filled_upto 1 0 fun _ => (0 : Nat)) 0 (by decide)⟩

/-- Claim C1, counterexample to the original wording: the original claim
says the ABA counter strictly increases on every one of the four
transitions.  On the fresh capacity-1 arena, slot 0 holds state word 0
(phase EMPTY, counter 0) and insert succeeds from it; the word its
EMPTY -> INIT compare-and-swap installs is insert_init_word 0 = 1
(phase INIT, counter still 0): the counter does not increase on that
transition.  Likewise the READY -> REMOVING step keeps the counter:
erase_removing_word 6 = 7 has the same counter 1 as word 6. -/
theorem c1_counterexample :
    safe_array_mk_checked (α := Nat) 1 = some (filled_upto 1 0 fun _ => 0) ∧
    ((filled_upto 1 0 fun _ => (0 : Nat)).data.getD 0 default).state = 0 ∧
    state_bits 0 = EMPTY ∧
    (SafeArray.insert (filled_upto 1 0 fun _ => (0 : Nat)) 5).1 = some (0, 5) ∧
    insert_init_word 0 = 1 ∧
    state_bits 1 = INIT ∧
    ctr_units 1 = ctr_units 0 ∧
    ((SafeArray.insert (filled_upto 1 0 fun _ => (0 : Nat)) 5).2.data.getD 0
        default).state = 6 ∧
    state_bits 6 = READY ∧
    (SafeArray.erase
        (SafeArray.insert (filled_upto 1 0 fun _ => (0 : Nat)) 5).2 0).1 = true ∧
    erase_removing_word 6 = 7 ∧
    state_bits 7 = REMOVING ∧
    ctr_units 7 = ctr_units 6 := by
  decide

end SafeArray
